import Mathlib

/-!
Shallow embedding of the resilient fetch orchestration layer of the
`api-scraping` repository (TypeScript), covering:

* `src/lib/proxyManager.ts` — `ProxyManager` (identity/proxy health registry);
* `src/services/fetcher.ts` — the retry controller (`fetchWithRetry`), the
  per-attempt error handler, and the cache-aware orchestrator
  (`fetchNaverProduct`, `cacheProduct`); the repository carries two variants
  of this file (a legacy exponential-backoff controller and the current
  rotation-based controller); both are embedded where they differ;
* `src/services/naverScraper.ts` — the blocking-detection response listener of
  `extractProductMetadata`;
* `src/lib/metrics.ts` — `MetricsTracker.getMetrics`.

Timestamps (`Date.now()`) are modelled as `Nat` milliseconds passed in
explicitly; JavaScript `a - b < c` comparisons on timestamps coincide with
truncated `Nat` subtraction for the cases that arise (the subtrahend is a
recorded past timestamp).
-/

namespace ApiScraping

/-! ### JavaScript `String.prototype.includes`

Substring containment on the character list, matching the JS semantics used
for error-message classification (`error.message?.includes("captcha")` etc.).
-/

/-- Boolean list-prefix test (`pat` is a prefix of `s`). -/
def listPrefixB : List Char → List Char → Bool
  | [], _ => true
  | _ :: _, [] => false
  | a :: as, b :: bs => a == b && listPrefixB as bs

/-- Boolean infix test (`pat` occurs contiguously inside `s`). -/
def listInfixB (pat : List Char) : List Char → Bool
  | [] => pat.isEmpty
  | s@(_ :: rest) => listPrefixB pat s || listInfixB pat rest

/-- JavaScript `s.includes(pat)`. -/
def strIncludes (s pat : String) : Bool :=
  listInfixB pat.data s.data

theorem listPrefixB_self (l : List Char) : listPrefixB l l = true := by
  induction l with
  | nil => rfl
  | cons a as ih => simp [listPrefixB, ih]

theorem listInfixB_self (l : List Char) : listInfixB l l = true := by
  cases l with
  | nil => rfl
  | cons a as => simp [listInfixB, listPrefixB_self]

/-- Every string contains itself, so in JS `url.includes(url)` is `true`. -/
theorem strIncludes_self (s : String) : strIncludes s s = true :=
  listInfixB_self s.data

/-! ### `src/config/scraper.config.ts` — the constants the embedded code reads -/

namespace ScraperConfig

def retryMaxAttempts : Nat := 3
def backoffBase : Nat := 10000
def backoffMax : Nat := 300000
def skipOnCaptcha : Bool := true
def rotateOnCaptcha : Bool := true

end ScraperConfig

/-! ### `src/lib/proxyManager.ts` — identity/proxy health registry -/

structure ProxyConfig where
  host : String
  port : Nat
  username : Option String := none
  password : Option String := none
deriving DecidableEq, Repr

instance : Inhabited ProxyConfig := ⟨⟨"", 0, none, none⟩⟩

/-- Health record kept per proxy key; mirrors interface `ProxyHealth`. -/
structure ProxyHealth where
  proxy : ProxyConfig
  failureCount : Nat
  lastUsed : Nat
  inCooldown : Bool
deriving DecidableEq, Repr

/-- Map key `` `${proxy.host}:${proxy.port}` `` (host/port pair). -/
def proxyKey (p : ProxyConfig) : String × Nat :=
  (p.host, p.port)

/-- Mutable state of a `ProxyManager` instance: the pool, the rotating
cursor, and the health map (a JS `Map`, iteration in insertion order). -/
structure ManagerState where
  proxies : List ProxyConfig
  currentIndex : Nat
  proxyHealth : List ((String × Nat) × ProxyHealth)
deriving DecidableEq, Repr

def MAX_FAILURES : Nat := 3
def COOLDOWN_TIME : Nat := 5 * 60 * 1000

/-- JS `Map.get`. -/
def lookupHealth : List ((String × Nat) × ProxyHealth) → (String × Nat) → Option ProxyHealth
  | [], _ => none
  | (k', h) :: rest, k => if k' = k then some h else lookupHealth rest k

/-- JS `Map.set`: replaces in place (keeping insertion order) or appends. -/
def setHealth : List ((String × Nat) × ProxyHealth) → (String × Nat) → ProxyHealth →
    List ((String × Nat) × ProxyHealth)
  | [], k, h => [(k, h)]
  | (k', h') :: rest, k, h =>
    if k' = k then (k, h) :: rest else (k', h') :: setHealth rest k h

/-- Embedding of `ProxyManager.markProxyFailed`: increment the failure counter; at the
`MAX_FAILURES` threshold enter cooldown and stamp `lastUsed` with `now`. -/
def markProxyFailed (st : ManagerState) (p : ProxyConfig) (now : Nat) : ManagerState :=
  match lookupHealth st.proxyHealth (proxyKey p) with
  | none => st
  | some h =>
    let fc := h.failureCount + 1
    let h' :=
      if MAX_FAILURES ≤ fc then
        { h with failureCount := fc, inCooldown := true, lastUsed := now }
      else
        { h with failureCount := fc }
    { st with proxyHealth := setHealth st.proxyHealth (proxyKey p) h' }

/-- Embedding of `ProxyManager.markProxySuccess`: decrement the failure counter, floored
at zero (`Math.max(0, c - 1)` with `c > 0`). -/
def markProxySuccess (st : ManagerState) (p : ProxyConfig) : ManagerState :=
  match lookupHealth st.proxyHealth (proxyKey p) with
  | none => st
  | some h =>
    if 0 < h.failureCount then
      let h' := { h with failureCount := h.failureCount - 1 }
      { st with proxyHealth := setHealth st.proxyHealth (proxyKey p) h' }
    else st

/-- One pass of the `while (attempts < maxAttempts)` scan loop inside
`getHealthyProxy`, with `fuel` the number of remaining loop iterations.
Each iteration reads the proxy at the cursor, advances the cursor modulo the
pool length, rehabilitates an expired cooldown (clearing the flag and the
counter), and returns the first proxy not in cooldown, stamping its
`lastUsed` with `now`. -/
def scanLoop (now : Nat) : ManagerState → Nat → Option ProxyConfig × ManagerState
  | st, 0 => (none, st)
  | st, fuel + 1 =>
    let len := st.proxies.length
    let proxy := st.proxies.getD st.currentIndex default
    let k := proxyKey proxy
    let st₁ : ManagerState := { st with currentIndex := (st.currentIndex + 1) % len }
    match lookupHealth st.proxyHealth k with
    | none => scanLoop now st₁ fuel
    | some h =>
      if h.inCooldown ∧ COOLDOWN_TIME < now - h.lastUsed then
        let h' := { h with inCooldown := false, failureCount := 0, lastUsed := now }
        (some proxy, { st₁ with proxyHealth := setHealth st.proxyHealth k h' })
      else if h.inCooldown then
        scanLoop now st₁ fuel
      else
        let h' := { h with lastUsed := now }
        (some proxy, { st₁ with proxyHealth := setHealth st.proxyHealth k h' })

/-- Fold mirroring the `for (const [, health] of this.proxyHealth)` loop of
`getLeastRecentlyUsedProxy`; `oldestTime` starts at `Infinity` (`none`), and
a strict `<` keeps the first minimum in iteration order. -/
def lruAux : List ((String × Nat) × ProxyHealth) → Option ProxyConfig → Option Nat →
    Option ProxyConfig
  | [], best, _ => best
  | (_, h) :: rest, best, bestT =>
    match bestT with
    | none => lruAux rest (some h.proxy) (some h.lastUsed)
    | some t =>
      if h.lastUsed < t then lruAux rest (some h.proxy) (some h.lastUsed)
      else lruAux rest best bestT

/-- Embedding of `ProxyManager.getLeastRecentlyUsedProxy` (`oldestProxy || this.proxies[0]`). -/
def getLeastRecentlyUsedProxy (st : ManagerState) : Option ProxyConfig :=
  if st.proxies.isEmpty then none
  else
    match lruAux st.proxyHealth none none with
    | some p => some p
    | none => st.proxies.head?

/-- Embedding of `ProxyManager.getHealthyProxy`: scan at most `2 × pool size` slots for a
proxy not in (unexpired) cooldown; if none is found, fall back to the
least-recently-used proxy. Returns the selected proxy and the updated state. -/
def getHealthyProxy (st : ManagerState) (now : Nat) : Option ProxyConfig × ManagerState :=
  if st.proxies.isEmpty then (none, st)
  else
    match scanLoop now st (st.proxies.length * 2) with
    | (some p, st') => (some p, st')
    | (none, st') => (getLeastRecentlyUsedProxy st', st')

/-! ### `src/services/fetcher.ts` — error classification and retry controller

Errors are carried as their JS `error.message` strings; classification is by
substring matching, exactly as in the source (`error.message?.includes(...)`).
-/

def isCaptchaMsg (msg : String) : Bool := strIncludes msg "captcha"
def is429Msg (msg : String) : Bool := strIncludes msg "429"
def is490Msg (msg : String) : Bool := strIncludes msg "490"

/-- Classification `isBlocked` inside `fetchWithRetry`. -/
def isBlockedMsg (msg : String) : Bool :=
  isCaptchaMsg msg || is429Msg msg || is490Msg msg || strIncludes msg "Service access"

/-- Backoff delay of the legacy `fetchWithRetry` variant:
`Math.min(baseBackoff * 2 ** attempt + Math.random() * 5000, maxBackoff)`,
with `baseBackoff`/`maxBackoff` chosen by the blocked classification.
`jitter` stands for the sampled `Math.random() * 5000 ∈ [0, 5000)`. -/
def legacyBackoffTime (isBlocked : Bool) (attempt jitter : Nat) : Nat :=
  min ((if isBlocked then ScraperConfig.backoffBase else 3000) * 2 ^ attempt + jitter)
    (if isBlocked then ScraperConfig.backoffMax else 30000)

/-- Observable trace of one `fetchWithRetry` run of the rotation-based
variant: how many times the attempt function was invoked, the delays waited
between attempts, and the final outcome (the thrown error is its message). -/
structure RetryTrace (T : Type) where
  calls : Nat
  delays : List Nat
  result : Except String T
deriving Repr

/-- Body of the rotation-based `fetchWithRetry` loop. `attempt` counts the
attempts already performed and `fuel` bounds the remaining iterations (the
loop runs while `attempt < retries`, incrementing `attempt` first); a `none`
`lastError` models the `undefined` initial value. -/
def retryAux (fetchFn : Nat → Except String T) (retries : Nat) :
    Option String → Nat → Nat → RetryTrace T
  | lastError, _, 0 =>
    { calls := 0, delays := [], result := .error (lastError.getD "undefined") }
  | lastError, attempt, fuel + 1 =>
    if attempt < retries then
      let a := attempt + 1
      match fetchFn a with
      | .ok v => { calls := 1, delays := [], result := .ok v }
      | .error e =>
        if retries ≤ a then { calls := 1, delays := [], result := .error e }
        else
          let d := if isBlockedMsg e then 2000 else 1000
          let rest := retryAux fetchFn retries (some e) a fuel
          { calls := rest.calls + 1, delays := d :: rest.delays, result := rest.result }
    else
      { calls := 0, delays := [], result := .error (lastError.getD "undefined") }

/-- Rotation-based `fetchWithRetry` (the variant that passes each attempt
its ordinal number): short fixed delay between attempts (2000 ms when the
error is classified blocked, else 1000 ms), rethrow of the last error on
exhaustion. -/
def fetchWithRetry (fetchFn : Nat → Except String T) (retries : Nat) : RetryTrace T :=
  retryAux fetchFn retries none 0 retries

/-- Catch-block of the per-attempt function of the rotation-based
`fetchNaverProduct` (fetcher.ts, `catch (error)` at the inner attempt):
classifies the message and reports the current proxy to the registry.
Note: the source's comment says, for CAPTCHA/429/490, "mark failed multiple
times for longer cooldown", but both branches of its `if` call
`markProxyFailed` exactly once. -/
def handleAttemptError (st : ManagerState) (currentProxy : Option ProxyConfig)
    (msg : String) (now : Nat) : ManagerState :=
  match currentProxy with
  | none => st
  | some p =>
    if isCaptchaMsg msg || is429Msg msg || is490Msg msg then
      markProxyFailed st p now
    else
      markProxyFailed st p now

/-- Catch-block of the legacy `fetchNaverProduct` variant: one ordinary
`markProxyFailed`, plus two extra `markProxyFailed` calls when the error is
a CAPTCHA and `ScraperConfig.proxy.rotateOnCaptcha` is set (three total). -/
def handleAttemptErrorLegacy (st : ManagerState) (currentProxy : Option ProxyConfig)
    (msg : String) (now : Nat) : ManagerState :=
  match currentProxy with
  | none => st
  | some p =>
    let st₁ := markProxyFailed st p now
    if isCaptchaMsg msg && ScraperConfig.rotateOnCaptcha then
      markProxyFailed (markProxyFailed st₁ p now) p now
    else st₁

/-! ### `src/services/fetcher.ts` — cache-aware orchestrator -/

structure Metadata where
  scrapedAt : String
  latency : Nat
  cached : Bool
deriving DecidableEq, Repr

structure NaverProductData where
  productDetail : Option String
  benefits : Option String
  metadata : Metadata
deriving DecidableEq, Repr

/-- Payload produced by a successful retry run (`scrapedData`). -/
structure ScrapePayload where
  productDetail : Option String
  benefits : Option String
deriving DecidableEq, Repr

/-- Observable outcome of one `fetchNaverProduct` call. `limiterScheduled`
records whether `limiter.schedule` (which wraps the retry controller and the
session runner) was entered at all; `cacheWrites` records the payloads passed
to the cache `setex`. -/
structure FetchOutcome where
  result : Except String NaverProductData
  limiterScheduled : Bool
  cacheWrites : List NaverProductData
deriving Repr

/-- Embedding of `cacheProduct`: the `redis.setex` call is wrapped in `try/catch`; a store
failure is logged and swallowed, so the function always returns normally. -/
def cacheProduct (setexOutcome : Except String Unit) : Except String Unit :=
  match setexOutcome with
  | .ok _ => .ok ()
  | .error _ => .ok ()

/-- Embedding of `fetchNaverProduct`, with its environment made explicit: `cachedEntry` is
the (parsed) Redis read, `retryOutcome` the outcome of the limiter-scheduled
retry run, `setexOutcome` what the cache store does on write, `startTime` and
`endTime` the two `Date.now()` reads, `timestamp` the ISO `scrapedAt` string.
On a cache hit the entry is returned with `cached := true` and a recomputed
latency, without entering the limiter; on a miss a successful result is
stamped (`cached := false`), written to cache, and returned. -/
def fetchNaverProduct (cachedEntry : Option NaverProductData)
    (retryOutcome : Except String ScrapePayload) (setexOutcome : Except String Unit)
    (startTime endTime : Nat) (timestamp : String) : FetchOutcome :=
  match cachedEntry with
  | some c =>
    let c' := { c with metadata := { c.metadata with cached := true, latency := endTime - startTime } }
    { result := .ok c', limiterScheduled := false, cacheWrites := [] }
  | none =>
    match retryOutcome with
    | .error e => { result := .error e, limiterScheduled := true, cacheWrites := [] }
    | .ok d =>
      let r : NaverProductData :=
        ⟨d.productDetail, d.benefits, ⟨timestamp, endTime - startTime, false⟩⟩
      match cacheProduct setexOutcome with
      | .error e => { result := .error e, limiterScheduled := true, cacheWrites := [r] }
      | .ok _ => { result := .ok r, limiterScheduled := true, cacheWrites := [r] }

/-! ### `src/services/naverScraper.ts` — blocking-detection response listener

The `captchaListener` inside `extractProductMetadata` runs three `if` blocks
per observed response, each calling the shared promise reject; the first
reject settles the promise, so for a single response the effective signal is
the first matching block. Note that its 429 guard reads `url.includes(url)`
— the inner `const url = response.url()` shadows the page URL, so the guard
compares the response URL with itself. -/

def criticalApi (u : String) : Bool :=
  strIncludes u "/i/v2/channels/" || strIncludes u "/benefits/by-product" ||
    strIncludes u "ambulance/pages"

/-- Signal raised by `captchaListener` for a response with URL `u` and HTTP
status `status` (the message of the `Error` passed to the reject), if any. -/
def captchaListenerSignal (u : String) (status : Nat) : Option String :=
  if strIncludes u u && status == 429 then some "429"
  else if strIncludes u "ncpt.naver.com" || strIncludes u "/captcha" then some "captcha"
  else if status == 490 && criticalApi u then some "490"
  else none

/-! ### `src/lib/metrics.ts` — `MetricsTracker.getMetrics`

Rates are modelled as exact rationals (the source formats them with
`toFixed(2)`/a `'%'` suffix; the numeric value is what the claims concern).
`Math.round(x)` on a non-negative exact ratio `a / b` is `(2a + b) / (2b)` in
truncated `Nat` division. The fields the source's empty-window branch omits
(`successfulRequests`, `failedRequests`, `minLatency`, `maxLatency`) are
modelled as `Option Nat`, absent (`none`) in that branch. The percentile
index `Math.floor(n * 0.95)` is modelled as `n * 95 / 100` (for the bounds
proved here both the float and the exact computation stay below `n`). -/

structure RequestRecord where
  timestamp : Nat
  latency : Nat
  success : Bool
  cached : Bool
  error : Option String := none
deriving DecidableEq, Repr

structure MetricsSummary where
  totalRequests : Nat
  successfulRequests : Option Nat
  failedRequests : Option Nat
  successRate : Rat
  errorRate : Rat
  averageLatency : Nat
  medianLatency : Nat
  p95Latency : Nat
  p99Latency : Nat
  minLatency : Option Nat
  maxLatency : Option Nat
  cacheHitRate : Rat
  requestsPerMinute : Nat
  uptime : Nat
deriving DecidableEq, Repr

/-- Summary returned when no recorded request falls in the window. -/
def emptyWindowSummary (uptime : Nat) : MetricsSummary :=
  { totalRequests := 0, successfulRequests := none, failedRequests := none
    successRate := 0, errorRate := 0
    averageLatency := 0, medianLatency := 0, p95Latency := 0, p99Latency := 0
    minLatency := none, maxLatency := none
    cacheHitRate := 0, requestsPerMinute := 0, uptime := uptime }

/-- Requests whose age `now - timestamp` is below the window. -/
def recentRequests (requests : List RequestRecord) (now windowMs : Nat) : List RequestRecord :=
  requests.filter fun r => now - r.timestamp < windowMs

/-- Latencies of the window, ascending (`.map(...).sort((a, b) => a - b)`). -/
def sortedLatencies (recent : List RequestRecord) : List Nat :=
  List.insertionSort (· ≤ ·) (recent.map (·.latency))

/-- Embedding of `MetricsTracker.getMetrics`: filter to the recency window; on an empty
window return the all-zero summary; otherwise compute counts, rates and
sorted-latency percentiles. -/
def getMetrics (requests : List RequestRecord) (now : Nat) (windowMinutes : Nat)
    (startTime : Nat) : MetricsSummary :=
  let windowMs := windowMinutes * 60 * 1000
  let recent := recentRequests requests now windowMs
  if recent.length = 0 then emptyWindowSummary ((now - startTime) / 1000)
  else
    let total := recent.length
    let successful := (recent.filter (·.success)).length
    let cachedN := (recent.filter (·.cached)).length
    let latencies := sortedLatencies recent
    let sumLatency := (recent.map (·.latency)).sum
    { totalRequests := total
      successfulRequests := some successful
      failedRequests := some (total - successful)
      successRate := (successful : Rat) / (total : Rat) * 100
      errorRate := ((total - successful : Nat) : Rat) / (total : Rat) * 100
      averageLatency := (2 * sumLatency + total) / (2 * total)
      medianLatency := latencies.getD (total / 2) 0
      p95Latency := latencies.getD (total * 95 / 100) 0
      p99Latency := latencies.getD (total * 99 / 100) 0
      minLatency := some (latencies.getD 0 0)
      maxLatency := some (latencies.getD (latencies.length - 1) 0)
      cacheHitRate := (cachedN : Rat) / (total : Rat) * 100
      requestsPerMinute := (2 * total + windowMinutes) / (2 * windowMinutes)
      uptime := (now - startTime) / 1000 }

/-! ### Derived notions and concrete fixtures used by the theorems -/

/-- Delay sequence of an all-failing rotation-based retry run: one entry per
non-final failed attempt, `2000` when that attempt's error is classified
blocked and `1000` otherwise (`errOf i` is the error of attempt `i`). -/
def delaySeq (errOf : Nat → String) : Nat → Nat → List Nat
  | _, 0 => []
  | start, n + 1 =>
    (if isBlockedMsg (errOf start) then 2000 else 1000) :: delaySeq errOf (start + 1) n

/-- Proxy `p` is registered in cooldown whose window has not yet elapsed at
`now` (this is the configuration `getHealthyProxy`'s scan refuses to pick). -/
def unexpiredCooldownAt (st : ManagerState) (now : Nat) (p : ProxyConfig) : Prop :=
  ∃ h, lookupHealth st.proxyHealth (proxyKey p) = some h ∧
    h.inCooldown = true ∧ now - h.lastUsed ≤ COOLDOWN_TIME

/-- Fixture: a proxy as parsed from a `host:port` proxy string. -/
def pA : ProxyConfig := { host := "a", port := 1 }

/-- Fixture: a one-proxy registry in its start state (counter `0`, healthy). -/
def stA : ManagerState :=
  { proxies := [pA], currentIndex := 0,
    proxyHealth := [(proxyKey pA, { proxy := pA, failureCount := 0, lastUsed := 0, inCooldown := false })] }

/-- Fixture: a one-proxy registry whose proxy has two recorded failures. -/
def stB : ManagerState :=
  { proxies := [pA], currentIndex := 0,
    proxyHealth := [(proxyKey pA, { proxy := pA, failureCount := 2, lastUsed := 0, inCooldown := false })] }

/-- Fixture: a request record for a metrics witness. -/
def reqR : RequestRecord := { timestamp := 0, latency := 5, success := true, cached := false }

/-- Fixture: a second, distinct proxy. -/
def pB : ProxyConfig := { host := "b", port := 2 }

/-- Fixture: a clean health record for `pA`. -/
def healthA : ProxyHealth := { proxy := pA, failureCount := 0, lastUsed := 0, inCooldown := false }

/-- Fixture: a clean health record for `pB`. -/
def healthB : ProxyHealth := { proxy := pB, failureCount := 0, lastUsed := 0, inCooldown := false }

/-- Fixture: a third, distinct proxy. -/
def pC : ProxyConfig := { host := "c", port := 3 }

/-- Fixture: a clean health record for `pC`. -/
def healthC : ProxyHealth := { proxy := pC, failureCount := 0, lastUsed := 0, inCooldown := false }

/-- Fixture: a health record for `pA` in unexpired cooldown. -/
def healthACool : ProxyHealth :=
  { proxy := pA, failureCount := 3, lastUsed := 0, inCooldown := true }

/-- Fixture: a three-proxy registry with the rotating cursor at slot 1. -/
def stW : ManagerState :=
  { proxies := [pA, pB, pC], currentIndex := 1,
    proxyHealth := [(proxyKey pA, healthA), (proxyKey pB, healthB), (proxyKey pC, healthC)] }

/-! ### Association-list (JS `Map`) lemmas -/

theorem lookupHealth_setHealth_self (m : List ((String × Nat) × ProxyHealth))
    (k : String × Nat) (h : ProxyHealth) :
    lookupHealth (setHealth m k h) k = some h := by
  induction m with
  | nil => simp [setHealth, lookupHealth]
  | cons e rest ih =>
    obtain ⟨k', h'⟩ := e
    by_cases hk : k' = k
    · simp [setHealth, hk, lookupHealth]
    · simp [setHealth, hk, lookupHealth, ih]

theorem lookupHealth_setHealth_ne (m : List ((String × Nat) × ProxyHealth))
    (k k' : String × Nat) (h : ProxyHealth) (hne : k ≠ k') :
    lookupHealth (setHealth m k h) k' = lookupHealth m k' := by
  induction m with
  | nil => simp [setHealth, lookupHealth, hne]
  | cons e rest ih =>
    obtain ⟨k₀, h₀⟩ := e
    by_cases hk : k₀ = k
    · subst hk
      simp [setHealth, lookupHealth, hne]
    · simp [setHealth, hk, lookupHealth, ih]

/-! ### Retry-controller lemmas -/

theorem delaySeq_const (errOf : Nat → String) (hnb : ∀ i, isBlockedMsg (errOf i) = false) :
    ∀ s n, delaySeq errOf s n = List.replicate n 1000 := by
  intro s n
  induction n generalizing s with
  | zero => rfl
  | succ n ih => simp [delaySeq, hnb, List.replicate, ih]

/-- Closed form of an all-failing rotation-based retry run, by downward
recursion on the remaining iteration budget. -/
theorem retryAux_all_fail (fetchFn : Nat → Except String T) (errOf : Nat → String)
    (retries : Nat)
    (hf : ∀ i, 1 ≤ i → i ≤ retries → fetchFn i = .error (errOf i)) :
    ∀ fuel attempt le, fuel + attempt = retries → attempt < retries →
      retryAux fetchFn retries le attempt fuel =
        { calls := retries - attempt,
          delays := delaySeq errOf (attempt + 1) (retries - attempt - 1),
          result := .error (errOf retries) } := by
  intro fuel
  induction fuel with
  | zero => intro attempt le hsum hlt; omega
  | succ fuel ih =>
    intro attempt le hsum hlt
    have ha : attempt + 1 ≤ retries := hlt
    simp only [retryAux, if_pos hlt, hf (attempt + 1) (by omega) ha]
    by_cases hle : retries ≤ attempt + 1
    · have hr : retries = attempt + 1 := by omega
      subst hr
      simp [delaySeq]
    · simp only [if_neg hle]
      rw [ih (attempt + 1) (some (errOf (attempt + 1))) (by omega) (by omega)]
      have h1 : retries - (attempt + 1) + 1 = retries - attempt := by omega
      have h2 : retries - attempt - 1 = (retries - (attempt + 1) - 1) + 1 := by omega
      simp only [h1, h2, delaySeq]

/-- Running `fetchWithRetry` on a run where every attempt fails: `retries` calls, one
inter-attempt delay per non-final attempt, and the last error rethrown. -/
theorem fetchWithRetry_all_fail (fetchFn : Nat → Except String T) (errOf : Nat → String)
    (retries : Nat) (hr : 1 ≤ retries)
    (hf : ∀ i, 1 ≤ i → i ≤ retries → fetchFn i = .error (errOf i)) :
    fetchWithRetry fetchFn retries =
      { calls := retries, delays := delaySeq errOf 1 (retries - 1),
        result := .error (errOf retries) } := by
  have h := retryAux_all_fail fetchFn errOf retries hf retries 0 none (by omega) (by omega)
  simpa [fetchWithRetry] using h

/-! ### Claim theorems -/

/-- C7: for every `maxAttempts ≥ 1`, if every attempt fails, the rotation
retry controller invokes the attempt function exactly `maxAttempts` times and
rethrows the error of the final attempt unchanged, preserving its
classification for the caller. -/
theorem retry_exhaustion_invokes_all_and_rethrows_last
    (fetchFn : Nat → Except String T) (errOf : Nat → String) (retries : Nat)
    (hr : 1 ≤ retries)
    (hf : ∀ i, 1 ≤ i → i ≤ retries → fetchFn i = .error (errOf i)) :
    (fetchWithRetry fetchFn retries).calls = retries ∧
    (fetchWithRetry fetchFn retries).result = .error (errOf retries) := by
  rw [fetchWithRetry_all_fail fetchFn errOf retries hr hf]
  exact ⟨rfl, rfl⟩

/-- Witness for C7: a session runner that always fails `Blocked{CAPTCHA}`
exhausts 3 attempts and rethrows an error still classified as captcha. -/
theorem retry_exhaustion_witness :
    (fetchWithRetry (T := Unit) (fun _ => .error "captcha") 3).calls = 3 ∧
    (fetchWithRetry (T := Unit) (fun _ => .error "captcha") 3).result = .error "captcha" :=
  retry_exhaustion_invokes_all_and_rethrows_last
    (fun _ => .error "captcha") (fun _ => "captcha") 3 (by omega) (fun _ _ _ => rfl)

/-- C2 counterexample: in the rotation-based controller a transient
(non-blocked) failure waits a fixed 1000 ms; for an always-`"timeout"` run of
3 attempts the two inter-attempt delays are both 1000 ms, so the delay does
not grow with the attempt number (no `base * 2 ^ attempt` shape). -/
theorem transient_retry_fixed_delay_cx :
    (fetchWithRetry (T := Unit) (fun _ => .error "timeout") 3).delays = [1000, 1000] ∧
    ¬ (fetchWithRetry (T := Unit) (fun _ => .error "timeout") 3).delays.getD 0 0 <
      (fetchWithRetry (T := Unit) (fun _ => .error "timeout") 3).delays.getD 1 0 := by
  constructor
  · rfl
  · decide

/-- C2 amended: the rotation-based controller waits a fixed 1000 ms after a
non-final transient failure (independent of the attempt number); the
exponential-backoff-with-jitter delay, capped at a ceiling and monotone in
the attempt number (`min (3000 * 2 ^ attempt + jitter) 30000` for transient
errors), is computed only by the legacy controller variant. -/
theorem transient_backoff_policy
    (fetchFn : Nat → Except String T) (errOf : Nat → String) (retries : Nat)
    (hr : 1 ≤ retries)
    (hf : ∀ i, 1 ≤ i → i ≤ retries → fetchFn i = .error (errOf i))
    (hnb : ∀ i, isBlockedMsg (errOf i) = false) :
    (fetchWithRetry fetchFn retries).delays = List.replicate (retries - 1) 1000 ∧
    ∀ a j : Nat,
      legacyBackoffTime false a j ≤ 30000 ∧
      legacyBackoffTime false a j ≤ legacyBackoffTime false (a + 1) j ∧
      (3000 * 2 ^ a + j ≤ 30000 → legacyBackoffTime false a j = 3000 * 2 ^ a + j) := by
  constructor
  · rw [fetchWithRetry_all_fail fetchFn errOf retries hr hf]
    simp [delaySeq_const errOf hnb]
  · intro a j
    refine ⟨?_, ?_, ?_⟩
    · show min (3000 * 2 ^ a + j) 30000 ≤ 30000
      exact min_le_right _ _
    · show min (3000 * 2 ^ a + j) 30000 ≤ min (3000 * 2 ^ (a + 1) + j) 30000
      apply min_le_min _ le_rfl
      have hpow : 2 ^ a ≤ 2 ^ (a + 1) := Nat.pow_le_pow_right (by omega) (Nat.le_succ a)
      exact Nat.add_le_add_right (Nat.mul_le_mul_left _ hpow) j
    · intro hle
      show min (3000 * 2 ^ a + j) 30000 = 3000 * 2 ^ a + j
      exact Nat.min_eq_left hle

/-- Witness for C2's amended theorem at a concrete all-transient run. -/
theorem transient_backoff_policy_witness :
    (fetchWithRetry (T := Unit) (fun _ => .error "timeout") 3).delays = List.replicate 2 1000 ∧
    legacyBackoffTime false 1 0 ≤ 30000 ∧
    legacyBackoffTime false 1 0 ≤ legacyBackoffTime false 2 0 := by
  have hto : isBlockedMsg "timeout" = false := by decide
  have h := transient_backoff_policy (T := Unit) (fun _ => .error "timeout")
    (fun _ => "timeout") 3 (by omega) (fun _ _ _ => rfl) (fun _ => hto)
  exact ⟨h.1, (h.2 1 0).1, (h.2 1 0).2.1⟩

/-- C1 evaluated at its failing input: in the current attempt error handler a
`429` (RATE_LIMITED) and a `captcha` failure each increment the registered
proxy's failure counter by exactly one step (same as an ordinary failure),
and even the legacy handler increments by one for `429` (it triples only
for captcha), contradicting "more than one step for CAPTCHA or RATE_LIMITED". -/
theorem blocked_failure_single_step_increment :
    ((lookupHealth (handleAttemptError stA (some pA) "429" 5).proxyHealth (proxyKey pA)).map
      (·.failureCount) = some 1) ∧
    ((lookupHealth (handleAttemptError stA (some pA) "captcha" 5).proxyHealth (proxyKey pA)).map
      (·.failureCount) = some 1) ∧
    ((lookupHealth (handleAttemptErrorLegacy stA (some pA) "429" 5).proxyHealth (proxyKey pA)).map
      (·.failureCount) = some 1) ∧
    ((lookupHealth (handleAttemptErrorLegacy stA (some pA) "captcha" 5).proxyHealth (proxyKey pA)).map
      (·.failureCount) = some 3) := by
  refine ⟨?_, ?_, ?_, ?_⟩ <;> decide

/-- C5: the blocking listener's 429 guard `url.includes(url)` holds for every
response URL, so any response with HTTP status 429 raises the `"429"` signal
(whatever its URL), and that error message is classified blocked/429 by the
retry controller (RATE_LIMITED). -/
theorem status_429_flags_any_url (u : String) :
    strIncludes u u = true ∧
    captchaListenerSignal u 429 = some "429" ∧
    is429Msg "429" = true ∧
    isBlockedMsg "429" = true := by
  refine ⟨strIncludes_self u, ?_, by decide, by decide⟩
  simp [captchaListenerSignal, strIncludes_self]

/-- C6: a cache hit returns the stored entry with `cached` forced to `true`
and a freshly recomputed latency, without entering the limiter (which wraps
the retry controller and session runner) and without writing to the cache;
and every payload ever passed to the cache write has `cached = false`. -/
theorem cache_hit_and_write_flags (c : NaverProductData)
    (ro : Except String ScrapePayload) (so : Except String Unit)
    (t0 t1 : Nat) (ts : String) (ce : Option NaverProductData) :
    (fetchNaverProduct (some c) ro so t0 t1 ts).result =
      .ok ({ c with metadata := { c.metadata with cached := true, latency := t1 - t0 } }) ∧
    (fetchNaverProduct (some c) ro so t0 t1 ts).limiterScheduled = false ∧
    (fetchNaverProduct (some c) ro so t0 t1 ts).cacheWrites = [] ∧
    ((fetchNaverProduct ce ro so t0 t1 ts).cacheWrites.all
      fun w => w.metadata.cached == false) = true := by
  refine ⟨rfl, rfl, rfl, ?_⟩
  cases ce with
  | some c' => rfl
  | none =>
    cases ro with
    | error e => rfl
    | ok d => cases so <;> rfl

/-- C9: on a successful scrape the orchestrator returns the stamped result
(`scrapedAt`, `latency`, `cached = false`) regardless of what the cache
store's `setex` does — in particular also when it throws. -/
theorem cache_write_failure_not_propagated (d : ScrapePayload)
    (so : Except String Unit) (t0 t1 : Nat) (ts : String) :
    (fetchNaverProduct none (.ok d) so t0 t1 ts).result =
      .ok ⟨d.productDetail, d.benefits, ⟨ts, t1 - t0, false⟩⟩ := by
  cases so <;> rfl

/-- C8: `markProxyFailed` on a registered identity increments its failure
counter by exactly one; exactly when the incremented counter reaches the
`MAX_FAILURES` threshold, the cooldown flag is set and `lastUsed` is stamped
with the current time (otherwise both are left untouched). -/
theorem reportFailure_increment_and_cooldown (st : ManagerState) (p : ProxyConfig)
    (now : Nat) (h : ProxyHealth)
    (hreg : lookupHealth st.proxyHealth (proxyKey p) = some h) :
    ∃ h', lookupHealth (markProxyFailed st p now).proxyHealth (proxyKey p) = some h' ∧
      h'.failureCount = h.failureCount + 1 ∧
      (MAX_FAILURES ≤ h.failureCount + 1 → h'.inCooldown = true ∧ h'.lastUsed = now) ∧
      (h.failureCount + 1 < MAX_FAILURES →
        h'.inCooldown = h.inCooldown ∧ h'.lastUsed = h.lastUsed) := by
  by_cases hth : MAX_FAILURES ≤ h.failureCount + 1
  · refine ⟨{ h with failureCount := h.failureCount + 1, inCooldown := true, lastUsed := now },
      ?_, rfl, fun _ => ⟨rfl, rfl⟩, fun hc => absurd hth (by omega)⟩
    simp only [markProxyFailed, hreg, if_pos hth]
    exact lookupHealth_setHealth_self _ _ _
  · refine ⟨{ h with failureCount := h.failureCount + 1 },
      ?_, rfl, fun hc => absurd hc hth, fun _ => ⟨rfl, rfl⟩⟩
    simp only [markProxyFailed, hreg, if_neg hth]
    exact lookupHealth_setHealth_self _ _ _

/-- Witness for C8: the third failure on a registered proxy (counter 2) sets
the cooldown flag and stamps `lastUsed` with the failure time. -/
theorem reportFailure_witness :
    ∃ h', lookupHealth (markProxyFailed stB pA 7).proxyHealth (proxyKey pA) = some h' ∧
      h'.failureCount = 2 + 1 ∧
      (MAX_FAILURES ≤ 2 + 1 → h'.inCooldown = true ∧ h'.lastUsed = 7) ∧
      (2 + 1 < MAX_FAILURES → h'.inCooldown = false ∧ h'.lastUsed = 0) :=
  reportFailure_increment_and_cooldown stB pA 7
    { proxy := pA, failureCount := 2, lastUsed := 0, inCooldown := false } (by decide)

/-- C3 counterexample: with a single-identity pool, the identity that failed
on attempt 1 (one ordinary failure, below the cooldown threshold) is selected
again by the registry for attempt 2 — the retried attempt reuses the identity
that just failed. -/
theorem retried_attempt_reuses_failed_identity_cx :
    (getHealthyProxy stA 1000).1 = some pA ∧
    (getHealthyProxy (markProxyFailed (getHealthyProxy stA 1000).2 pA 1500) 2000).1 = some pA := by
  decide

/-- One scan iteration on a cursor proxy that is registered and not in
cooldown returns that proxy, advancing the cursor and stamping `lastUsed`. -/
theorem scanLoop_healthy_head (now : Nat) (st : ManagerState) (fuel : Nat) (h0 : ProxyHealth)
    (hl : lookupHealth st.proxyHealth (proxyKey (st.proxies.getD st.currentIndex default)) =
      some h0)
    (hc : h0.inCooldown = false) :
    scanLoop now st (fuel + 1) =
      (some (st.proxies.getD st.currentIndex default),
        { st with currentIndex := (st.currentIndex + 1) % st.proxies.length,
                  proxyHealth := setHealth st.proxyHealth
                    (proxyKey (st.proxies.getD st.currentIndex default))
                    ({ h0 with lastUsed := now }) }) := by
  simp only [scanLoop, hl]
  rw [if_neg (by simp [hc]), if_neg (by simp [hc])]

/-- Selection on a state whose cursor proxy is registered and not in
cooldown returns that proxy, advancing the cursor and stamping `lastUsed`. -/
theorem getHealthyProxy_healthy_head (st : ManagerState) (now : Nat) (h0 : ProxyHealth)
    (hidx : st.currentIndex < st.proxies.length)
    (hl : lookupHealth st.proxyHealth (proxyKey (st.proxies.getD st.currentIndex default)) =
      some h0)
    (hc : h0.inCooldown = false) :
    getHealthyProxy st now =
      (some (st.proxies.getD st.currentIndex default),
        { st with currentIndex := (st.currentIndex + 1) % st.proxies.length,
                  proxyHealth := setHealth st.proxyHealth
                    (proxyKey (st.proxies.getD st.currentIndex default))
                    ({ h0 with lastUsed := now }) }) := by
  have hie : st.proxies.isEmpty = false := by
    cases hp : st.proxies with
    | nil => rw [hp] at hidx; simp at hidx
    | cons a t => rfl
  have hfuel : st.proxies.length * 2 = (st.proxies.length * 2 - 1) + 1 := by omega
  unfold getHealthyProxy
  rw [if_neg (by rw [hie]; exact Bool.false_ne_true), hfuel,
    scanLoop_healthy_head now st _ h0 hl hc]

/-- Reporting a failure never changes the pool. -/
theorem markProxyFailed_proxies (st : ManagerState) (p : ProxyConfig) (now : Nat) :
    (markProxyFailed st p now).proxies = st.proxies := by
  cases hl : lookupHealth st.proxyHealth (proxyKey p) with
  | none => simp [markProxyFailed, hl]
  | some hh => simp [markProxyFailed, hl]

/-- Reporting a failure never moves the rotating cursor. -/
theorem markProxyFailed_currentIndex (st : ManagerState) (p : ProxyConfig) (now : Nat) :
    (markProxyFailed st p now).currentIndex = st.currentIndex := by
  cases hl : lookupHealth st.proxyHealth (proxyKey p) with
  | none => simp [markProxyFailed, hl]
  | some hh => simp [markProxyFailed, hl]

/-- Reporting a failure leaves every other key's health entry unchanged. -/
theorem markProxyFailed_lookup_ne (st : ManagerState) (p : ProxyConfig) (now : Nat)
    (k' : String × Nat) (hne : k' ≠ proxyKey p) :
    lookupHealth (markProxyFailed st p now).proxyHealth k' =
      lookupHealth st.proxyHealth k' := by
  cases hl : lookupHealth st.proxyHealth (proxyKey p) with
  | none => simp [markProxyFailed, hl]
  | some hh =>
    simp only [markProxyFailed, hl]
    exact lookupHealth_setHealth_ne _ _ _ _ (Ne.symm hne)

/-- C3 amended: a retried attempt re-selects through the registry's rotating
cursor rather than excluding the identity that just failed. Whenever the pool
slot after the just-failed identity holds a distinct identity that is
registered and not in cooldown, the retried attempt receives that distinct
identity — for any pool contents (hence any pool size of at least two) and
any cursor position. With a one-identity pool, selection always returns the
sole identity, whatever its health state (including unexpired cooldown, via
the least-recently-used fallback), so a retried attempt necessarily reuses
the identity that just failed. -/
theorem retried_attempt_rotation_policy :
    (∀ (st : ManagerState) (h0 h1 : ProxyHealth) (now now' now'' : Nat),
      st.currentIndex < st.proxies.length →
      lookupHealth st.proxyHealth
        (proxyKey (st.proxies.getD st.currentIndex default)) = some h0 →
      h0.inCooldown = false →
      lookupHealth st.proxyHealth
        (proxyKey (st.proxies.getD ((st.currentIndex + 1) % st.proxies.length) default)) =
        some h1 →
      h1.inCooldown = false →
      proxyKey (st.proxies.getD st.currentIndex default) ≠
        proxyKey (st.proxies.getD ((st.currentIndex + 1) % st.proxies.length) default) →
      (getHealthyProxy st now).1 = some (st.proxies.getD st.currentIndex default) ∧
      (getHealthyProxy (markProxyFailed (getHealthyProxy st now).2
          (st.proxies.getD st.currentIndex default) now') now'').1 =
        some (st.proxies.getD ((st.currentIndex + 1) % st.proxies.length) default)) ∧
    (∀ (p : ProxyConfig) (h : ProxyHealth) (now₀ : Nat), h.proxy = p →
      (getHealthyProxy ⟨[p], 0, [(proxyKey p, h)]⟩ now₀).1 = some p) := by
  constructor
  · intro st h0 h1 now now' now'' hidx hl0 hc0 hl1 hc1 hk
    have hlen : 0 < st.proxies.length := by omega
    have hsel1 := getHealthyProxy_healthy_head st now h0 hidx hl0 hc0
    refine ⟨by rw [hsel1], ?_⟩
    rw [hsel1]
    have hlk : lookupHealth
        (markProxyFailed
          ({ st with currentIndex := (st.currentIndex + 1) % st.proxies.length,
                     proxyHealth := setHealth st.proxyHealth
                       (proxyKey (st.proxies.getD st.currentIndex default))
                       ({ h0 with lastUsed := now }) })
          (st.proxies.getD st.currentIndex default) now').proxyHealth
        (proxyKey (st.proxies.getD ((st.currentIndex + 1) % st.proxies.length) default)) =
        some h1 := by
      rw [markProxyFailed_lookup_ne _ _ _ _ (Ne.symm hk)]
      show lookupHealth
        (setHealth st.proxyHealth (proxyKey (st.proxies.getD st.currentIndex default))
          ({ h0 with lastUsed := now }))
        (proxyKey (st.proxies.getD ((st.currentIndex + 1) % st.proxies.length) default)) =
        some h1
      rw [lookupHealth_setHealth_ne _ _ _ _ hk]
      exact hl1
    have hpr := markProxyFailed_proxies
      ({ st with currentIndex := (st.currentIndex + 1) % st.proxies.length,
                 proxyHealth := setHealth st.proxyHealth
                   (proxyKey (st.proxies.getD st.currentIndex default))
                   ({ h0 with lastUsed := now }) })
      (st.proxies.getD st.currentIndex default) now'
    have hci := markProxyFailed_currentIndex
      ({ st with currentIndex := (st.currentIndex + 1) % st.proxies.length,
                 proxyHealth := setHealth st.proxyHealth
                   (proxyKey (st.proxies.getD st.currentIndex default))
                   ({ h0 with lastUsed := now }) })
      (st.proxies.getD st.currentIndex default) now'
    have hidx2 : (markProxyFailed
        ({ st with currentIndex := (st.currentIndex + 1) % st.proxies.length,
                   proxyHealth := setHealth st.proxyHealth
                     (proxyKey (st.proxies.getD st.currentIndex default))
                     ({ h0 with lastUsed := now }) })
        (st.proxies.getD st.currentIndex default) now').currentIndex <
        (markProxyFailed
        ({ st with currentIndex := (st.currentIndex + 1) % st.proxies.length,
                   proxyHealth := setHealth st.proxyHealth
                     (proxyKey (st.proxies.getD st.currentIndex default))
                     ({ h0 with lastUsed := now }) })
        (st.proxies.getD st.currentIndex default) now').proxies.length := by
      rw [hpr, hci]
      exact Nat.mod_lt _ hlen
    have hgd : (markProxyFailed
        ({ st with currentIndex := (st.currentIndex + 1) % st.proxies.length,
                   proxyHealth := setHealth st.proxyHealth
                     (proxyKey (st.proxies.getD st.currentIndex default))
                     ({ h0 with lastUsed := now }) })
        (st.proxies.getD st.currentIndex default) now').proxies.getD
        (markProxyFailed
        ({ st with currentIndex := (st.currentIndex + 1) % st.proxies.length,
                   proxyHealth := setHealth st.proxyHealth
                     (proxyKey (st.proxies.getD st.currentIndex default))
                     ({ h0 with lastUsed := now }) })
        (st.proxies.getD st.currentIndex default) now').currentIndex default =
        st.proxies.getD ((st.currentIndex + 1) % st.proxies.length) default := by
      rw [hpr, hci]
    have hsel2 := getHealthyProxy_healthy_head _ now'' h1 hidx2 (by rw [hgd]; exact hlk) hc1
    rw [hsel2]
    exact congrArg some hgd
  · intro p h now₀ hp
    by_cases hcd : h.inCooldown ∧ COOLDOWN_TIME < now₀ - h.lastUsed
    · simp [getHealthyProxy, scanLoop, lookupHealth, hcd]
    · by_cases hco : h.inCooldown
      · have hnc : ¬ COOLDOWN_TIME < now₀ - h.lastUsed := fun hx => hcd ⟨hco, hx⟩
        simp [getHealthyProxy, scanLoop, lookupHealth, getLeastRecentlyUsedProxy, lruAux,
          hco, hnc, hp]
      · simp [getHealthyProxy, scanLoop, lookupHealth, hcd, hco]

/-- Witness for C3's amended theorem: rotation on a three-proxy pool with the
cursor at slot 1 (the next slot's distinct healthy identity is selected after
the failure), and forced reuse on a one-proxy pool whose sole identity sits
in unexpired cooldown. -/
theorem retried_attempt_rotation_policy_witness :
    ((getHealthyProxy stW 10).1 = some pB ∧
      (getHealthyProxy (markProxyFailed (getHealthyProxy stW 10).2 pB 20) 30).1 = some pC) ∧
    (getHealthyProxy ⟨[pA], 0, [(proxyKey pA, healthACool)]⟩ 99).1 = some pA :=
  ⟨retried_attempt_rotation_policy.1 stW healthB healthC 10 20 30
      (by decide) (by decide) rfl (by decide) rfl (by decide),
    retried_attempt_rotation_policy.2 pA healthACool 99 rfl⟩

/-! ### Scan-loop lemmas for the cooldown-selection invariant -/

/-- A scan pass that finds nothing mutates neither the pool nor the health map. -/
theorem scanLoop_none_state (now : Nat) :
    ∀ fuel st st', scanLoop now st fuel = (none, st') →
      st'.proxyHealth = st.proxyHealth ∧ st'.proxies = st.proxies := by
  intro fuel
  induction fuel with
  | zero =>
    intro st st' h
    simp only [scanLoop, Prod.mk.injEq] at h
    rw [← h.2]
    exact ⟨rfl, rfl⟩
  | succ fuel ih =>
    intro st st' h
    cases hl : lookupHealth st.proxyHealth
        (proxyKey (st.proxies.getD st.currentIndex default)) with
    | none =>
      simp only [scanLoop, hl] at h
      exact ih { st with currentIndex := (st.currentIndex + 1) % st.proxies.length } st' h
    | some hh =>
      simp only [scanLoop, hl] at h
      by_cases hcd : hh.inCooldown ∧ COOLDOWN_TIME < now - hh.lastUsed
      · rw [if_pos hcd] at h
        simp at h
      · rw [if_neg hcd] at h
        by_cases hc : hh.inCooldown
        · rw [if_pos hc] at h
          exact ih { st with currentIndex := (st.currentIndex + 1) % st.proxies.length } st' h
        · rw [if_neg hc] at h
          simp at h

/-- If a scan pass with `fuel` iterations finds nothing, then each of the
`fuel` slots it visited (from the cursor on, cyclically) holds a proxy in
unexpired cooldown. -/
theorem scanLoop_none_unexpired (now : Nat) :
    ∀ fuel st, st.currentIndex < st.proxies.length →
      (∀ p ∈ st.proxies, (lookupHealth st.proxyHealth (proxyKey p)).isSome) →
      (scanLoop now st fuel).1 = none →
      ∀ m < fuel, unexpiredCooldownAt st now
        (st.proxies.getD ((st.currentIndex + m) % st.proxies.length) default) := by
  intro fuel
  induction fuel with
  | zero => intro st _ _ _ m hm; omega
  | succ fuel ih =>
    intro st hidx hreg hnone m hm
    have hplen : 0 < st.proxies.length := by omega
    have hmem : st.proxies.getD st.currentIndex default ∈ st.proxies := by
      rw [List.getD_eq_getElem st.proxies default hidx]
      exact List.getElem_mem hidx
    have hsome := hreg _ hmem
    cases hl : lookupHealth st.proxyHealth
        (proxyKey (st.proxies.getD st.currentIndex default)) with
    | none => rw [hl] at hsome; simp at hsome
    | some hh =>
      simp only [scanLoop, hl] at hnone
      by_cases hcd : hh.inCooldown ∧ COOLDOWN_TIME < now - hh.lastUsed
      · rw [if_pos hcd] at hnone
        simp at hnone
      · rw [if_neg hcd] at hnone
        by_cases hc : hh.inCooldown
        · rw [if_pos hc] at hnone
          cases m with
          | zero =>
            rw [Nat.add_zero, Nat.mod_eq_of_lt hidx]
            refine ⟨hh, hl, hc, ?_⟩
            rcases Nat.lt_or_ge COOLDOWN_TIME (now - hh.lastUsed) with hgt | hge
            · exact absurd ⟨hc, hgt⟩ hcd
            · omega
          | succ m =>
            have hidx' : (st.currentIndex + 1) % st.proxies.length < st.proxies.length :=
              Nat.mod_lt _ hplen
            have hrec := ih { st with currentIndex := (st.currentIndex + 1) % st.proxies.length } hidx' hreg hnone m (by omega)
            have heq : ((st.currentIndex + 1) % st.proxies.length + m) % st.proxies.length =
                (st.currentIndex + (m + 1)) % st.proxies.length := by
              rw [Nat.mod_add_mod]
              congr 1
              omega
            rw [heq] at hrec
            exact hrec
        · rw [if_neg hc] at hnone
          simp at hnone

/-- Cyclic coverage: a scan budget of `2 × pool size` starting below the pool
size reaches every slot. -/
theorem scan_coverage (idx j len : Nat) (hidx : idx < len) (hj : j < len) :
    ∃ m, m < len * 2 ∧ (idx + m) % len = j := by
  rcases le_or_lt idx j with hle | hlt
  · refine ⟨j - idx, by omega, ?_⟩
    rw [show idx + (j - idx) = j by omega]
    exact Nat.mod_eq_of_lt hj
  · refine ⟨j + len - idx, by omega, ?_⟩
    rw [show idx + (j + len - idx) = j + len by omega, Nat.add_mod_right]
    exact Nat.mod_eq_of_lt hj

/-- A proxy returned by the scan pass was not in unexpired cooldown in the
state the scan started from. -/
theorem scanLoop_some_not_unexpired (now : Nat) :
    ∀ fuel st p st', scanLoop now st fuel = (some p, st') →
      ¬ unexpiredCooldownAt st now p := by
  intro fuel
  induction fuel with
  | zero =>
    intro st p st' h
    simp [scanLoop] at h
  | succ fuel ih =>
    intro st p st' h
    cases hl : lookupHealth st.proxyHealth
        (proxyKey (st.proxies.getD st.currentIndex default)) with
    | none =>
      simp only [scanLoop, hl] at h
      exact ih { st with currentIndex := (st.currentIndex + 1) % st.proxies.length } p st' h
    | some hh =>
      simp only [scanLoop, hl] at h
      by_cases hcd : hh.inCooldown ∧ COOLDOWN_TIME < now - hh.lastUsed
      · rw [if_pos hcd] at h
        simp only [Prod.mk.injEq, Option.some.injEq] at h
        rw [← h.1]
        rintro ⟨h', hl', _, hle⟩
        rw [hl] at hl'
        cases hl'
        omega
      · rw [if_neg hcd] at h
        by_cases hc : hh.inCooldown
        · rw [if_pos hc] at h
          exact ih { st with currentIndex := (st.currentIndex + 1) % st.proxies.length } p st' h
        · rw [if_neg hc] at h
          simp only [Prod.mk.injEq, Option.some.injEq] at h
          rw [← h.1]
          rintro ⟨h', hl', hcool, _⟩
          rw [hl] at hl'
          cases hl'
          exact hc (by rw [hcool])

/-- If every pooled proxy is in unexpired cooldown, the scan pass finds
nothing (for any iteration budget). -/
theorem scanLoop_all_unexpired_none (now : Nat) :
    ∀ fuel st, st.currentIndex < st.proxies.length →
      (∀ q ∈ st.proxies, unexpiredCooldownAt st now q) →
      (scanLoop now st fuel).1 = none := by
  intro fuel
  induction fuel with
  | zero => intro st _ _; rfl
  | succ fuel ih =>
    intro st hidx hall
    have hplen : 0 < st.proxies.length := by omega
    have hmem : st.proxies.getD st.currentIndex default ∈ st.proxies := by
      rw [List.getD_eq_getElem st.proxies default hidx]
      exact List.getElem_mem hidx
    obtain ⟨hh, hl, hcool, hle⟩ := hall _ hmem
    simp only [scanLoop, hl]
    rw [if_neg (fun hcd => by omega : ¬ (hh.inCooldown ∧ COOLDOWN_TIME < now - hh.lastUsed))]
    rw [if_pos (by rw [hcool] : hh.inCooldown = true)]
    exact ih { st with currentIndex := (st.currentIndex + 1) % st.proxies.length } (Nat.mod_lt _ hplen) hall

/-- The least-recently-used fallback always yields a proxy on a non-empty pool. -/
theorem lru_isSome (st : ManagerState) (hne : st.proxies ≠ []) :
    ∃ p, getLeastRecentlyUsedProxy st = some p := by
  have hie : st.proxies.isEmpty = false := by
    cases hp : st.proxies with
    | nil => exact absurd hp hne
    | cons a t => rfl
  cases hl : lruAux st.proxyHealth none none with
  | some p =>
    exact ⟨p, by simp [getLeastRecentlyUsedProxy, hie, hl]⟩
  | none =>
    cases hp : st.proxies with
    | nil => exact absurd hp hne
    | cons a t =>
      exact ⟨a, by simp [getLeastRecentlyUsedProxy, hie, hl, hp]⟩

/-- The least-recently-used selection reads only the pool and the health map. -/
theorem lru_eq_of_fields (st₁ st₂ : ManagerState) (hp : st₁.proxies = st₂.proxies)
    (hh : st₁.proxyHealth = st₂.proxyHealth) :
    getLeastRecentlyUsedProxy st₁ = getLeastRecentlyUsedProxy st₂ := by
  unfold getLeastRecentlyUsedProxy
  rw [hp, hh]

/-- C4: on a non-empty pool (with the reachable-state invariants that the
cursor is in range and every pooled proxy is registered in the health map),
`getHealthyProxy` always returns an identity; it never returns one in
unexpired cooldown unless every pooled identity is in unexpired cooldown; and
in that all-cooldown case what it returns is the least-recently-used
identity. -/
theorem selectHealthy_cooldown_invariant (st : ManagerState) (now : Nat)
    (hne : st.proxies ≠ []) (hidx : st.currentIndex < st.proxies.length)
    (hreg : ∀ p ∈ st.proxies, (lookupHealth st.proxyHealth (proxyKey p)).isSome) :
    (∃ p, (getHealthyProxy st now).1 = some p) ∧
    (∀ p, (getHealthyProxy st now).1 = some p → unexpiredCooldownAt st now p →
      ∀ q ∈ st.proxies, unexpiredCooldownAt st now q) ∧
    ((∀ q ∈ st.proxies, unexpiredCooldownAt st now q) →
      (getHealthyProxy st now).1 = getLeastRecentlyUsedProxy st) := by
  have hie : st.proxies.isEmpty = false := by
    cases hp : st.proxies with
    | nil => exact absurd hp hne
    | cons a t => rfl
  have hgh : getHealthyProxy st now =
      match scanLoop now st (st.proxies.length * 2) with
      | (some p, st') => (some p, st')
      | (none, st') => (getLeastRecentlyUsedProxy st', st') := by
    unfold getHealthyProxy
    rw [if_neg (by rw [hie]; exact Bool.false_ne_true)]
  cases hscan : scanLoop now st (st.proxies.length * 2) with
  | mk op st' =>
    cases op with
    | some p =>
      rw [hgh, hscan]
      refine ⟨⟨p, rfl⟩, ?_, ?_⟩
      · intro p' hp' hux
        have hnu := scanLoop_some_not_unexpired now (st.proxies.length * 2) st p st' hscan
        cases hp'
        exact absurd hux hnu
      · intro hall
        have hno := scanLoop_all_unexpired_none now (st.proxies.length * 2) st hidx hall
        rw [hscan] at hno
        simp at hno
    | none =>
      have hstate := scanLoop_none_state now (st.proxies.length * 2) st st' hscan
      have hall : ∀ q ∈ st.proxies, unexpiredCooldownAt st now q := by
        intro q hq
        obtain ⟨j, hj, hgj⟩ := List.getElem_of_mem hq
        obtain ⟨m, hm, hmod⟩ := scan_coverage st.currentIndex j st.proxies.length hidx hj
        have hbad := scanLoop_none_unexpired now (st.proxies.length * 2) st hidx hreg
          (by rw [hscan]) m hm
        rw [hmod, List.getD_eq_getElem st.proxies default hj, hgj] at hbad
        exact hbad
      rw [hgh, hscan]
      obtain ⟨p, hp⟩ := lru_isSome st' (by rw [hstate.2]; exact hne)
      refine ⟨⟨p, hp⟩, fun _ _ _ => hall, fun _ => ?_⟩
      exact lru_eq_of_fields st' st hstate.2 hstate.1

/-- Witness for C4's selection invariant on a concrete healthy one-proxy pool. -/
theorem selectHealthy_cooldown_invariant_witness :
    (∃ p, (getHealthyProxy stA 1000).1 = some p) ∧
    (∀ p, (getHealthyProxy stA 1000).1 = some p → unexpiredCooldownAt stA 1000 p →
      ∀ q ∈ stA.proxies, unexpiredCooldownAt stA 1000 q) ∧
    ((∀ q ∈ stA.proxies, unexpiredCooldownAt stA 1000 q) →
      (getHealthyProxy stA 1000).1 = getLeastRecentlyUsedProxy stA) :=
  selectHealthy_cooldown_invariant stA 1000 (by decide) (by decide) (by decide)

/-- C10: `getMetrics` on a window containing no recorded request returns the
all-zero summary (computing no rate and indexing no array), and on a
non-empty window every index used on the sorted latency list — median, p95,
p99, min and max — is within its bounds. -/
theorem getMetrics_empty_window_and_percentile_bounds
    (reqs : List RequestRecord) (now win start : Nat) :
    (recentRequests reqs now (win * 60 * 1000) = [] →
      getMetrics reqs now win start = emptyWindowSummary ((now - start) / 1000)) ∧
    (recentRequests reqs now (win * 60 * 1000) ≠ [] →
      0 < (sortedLatencies (recentRequests reqs now (win * 60 * 1000))).length ∧
      (recentRequests reqs now (win * 60 * 1000)).length / 2 <
        (sortedLatencies (recentRequests reqs now (win * 60 * 1000))).length ∧
      (recentRequests reqs now (win * 60 * 1000)).length * 95 / 100 <
        (sortedLatencies (recentRequests reqs now (win * 60 * 1000))).length ∧
      (recentRequests reqs now (win * 60 * 1000)).length * 99 / 100 <
        (sortedLatencies (recentRequests reqs now (win * 60 * 1000))).length ∧
      (sortedLatencies (recentRequests reqs now (win * 60 * 1000))).length - 1 <
        (sortedLatencies (recentRequests reqs now (win * 60 * 1000))).length) := by
  constructor
  · intro h
    simp [getMetrics, h]
  · intro h
    have hn : 0 < (recentRequests reqs now (win * 60 * 1000)).length :=
      List.length_pos.mpr h
    have hlen : (sortedLatencies (recentRequests reqs now (win * 60 * 1000))).length =
        (recentRequests reqs now (win * 60 * 1000)).length := by
      unfold sortedLatencies
      rw [List.length_insertionSort, List.length_map]
    rw [hlen]
    refine ⟨hn, Nat.div_lt_self hn (by omega), ?_, ?_, by omega⟩
    · rw [Nat.div_lt_iff_lt_mul (by omega : (0:Nat) < 100)]
      omega
    · rw [Nat.div_lt_iff_lt_mul (by omega : (0:Nat) < 100)]
      omega

/-- Witness for C10 at an empty record list and at a one-record window. -/
theorem getMetrics_bounds_witness :
    getMetrics [] 0 60 0 = emptyWindowSummary ((0 - 0) / 1000) ∧
    (0 < (sortedLatencies (recentRequests [reqR] 0 (60 * 60 * 1000))).length ∧
      (recentRequests [reqR] 0 (60 * 60 * 1000)).length / 2 <
        (sortedLatencies (recentRequests [reqR] 0 (60 * 60 * 1000))).length ∧
      (recentRequests [reqR] 0 (60 * 60 * 1000)).length * 95 / 100 <
        (sortedLatencies (recentRequests [reqR] 0 (60 * 60 * 1000))).length ∧
      (recentRequests [reqR] 0 (60 * 60 * 1000)).length * 99 / 100 <
        (sortedLatencies (recentRequests [reqR] 0 (60 * 60 * 1000))).length ∧
      (sortedLatencies (recentRequests [reqR] 0 (60 * 60 * 1000))).length - 1 <
        (sortedLatencies (recentRequests [reqR] 0 (60 * 60 * 1000))).length) :=
  ⟨(getMetrics_empty_window_and_percentile_bounds [] 0 60 0).1 rfl,
    (getMetrics_empty_window_and_percentile_bounds [reqR] 0 60 0).2 (by decide)⟩

end ApiScraping
